import Mathlib

/-
  Shallow embedding of the virtual paper-trading engine
  (src/virtual_portfolio.py, src/position_monitor.py, src/market_analyzer.py,
  src/config.py) and proofs about its ledger operations.

  Modelling conventions:
  * Python floats are modelled by exact rationals (ℚ); the spec states all
    formulas as exact real arithmetic.
  * Python `None` becomes `Option.none`; a dict-backed position record becomes
    the structure `Position`.
  * Python exceptions (`ZeroDivisionError` inside the `try` blocks) are modelled
    by the explicit guard branches noted in comments: the `except` handler
    returns `False`/`None`, keeping whatever state was mutated before the raise.
  * The append-only trade log written through `db.insert_virtual_trade` is
    modelled as a `List TradeRecord` field of the portfolio state.
  * Wall-clock fields (`entry_time`, `exit_time`, `holding_duration`) and log
    strings are irrelevant to every claim and are omitted from the state.
-/

namespace CTB

/-- Position direction, the `direction` strings `'LONG'` / `'SHORT'`. -/
inductive Direction
| long
| short
deriving DecidableEq, Repr

/-- The `action` argument of `_apply_slippage` (`'ENTER'` / `'EXIT'`). -/
inductive TradeAction
| enterAct
| exitAct
deriving DecidableEq, Repr

/-- `self.trading_fee_rate = 0.0004` in `VirtualPortfolio.__init__`. -/
def trading_fee_rate : ℚ := 4 / 10000

/-- `self.slippage_rate = 0.001` in `VirtualPortfolio.__init__`. -/
def slippage_rate : ℚ := 1 / 1000

/-- `self.partial_take_profit_ratio = 0.5` in `VirtualPortfolio.__init__`
(renamed: Lean-side names avoid the source suffix). -/
def take_profit_frac : ℚ := 1 / 2

/-- `self.trailing_stop_ratio = 0.02` in `VirtualPortfolio.__init__`
(renamed as above). -/
def trailing_stop_frac : ℚ := 2 / 100

/-- `min_balance = 100.0` in `can_enter_position`. -/
def min_balance : ℚ := 100

/-- `DEFAULT_SYMBOL = "SOL/USDT"` in src/config.py. -/
def DEFAULT_SYMBOL : String := "SOL/USDT"

/-- ASCII upper-casing of one character, as `str.upper` acts on the ASCII
symbol strings this program handles. -/
def upperChar (c : Char) : Char :=
  if c.isLower then Char.ofNat (c.toNat - 32) else c

/-- ASCII whitespace, the characters `str.strip` removes from the strings
this program handles. -/
def isSpaceChar (c : Char) : Bool :=
  c = ' ' || c = '\t' || c = '\n' || c = '\r'

/-- Python `str.strip()` on the character list: drop whitespace from both
ends. -/
def stripChars (l : List Char) : List Char :=
  ((l.dropWhile isSpaceChar).reverse.dropWhile isSpaceChar).reverse

/-- Python `str.split(sep)` for a one-character separator. -/
def splitOnChar (sep : Char) (l : List Char) : List (List Char) :=
  l.foldr (fun c acc =>
    if c = sep then [] :: acc
    else
      match acc with
      | h :: t => (c :: h) :: t
      | [] => [[c]]) [[]]

/-- Python `s.endswith(suffix)` on character lists. -/
def endsWithChars (l suffix : List Char) : Bool :=
  if suffix.length ≤ l.length then
    decide (l.drop (l.length - suffix.length) = suffix)
  else false

/-- `config.normalize_symbol` on the underlying character list.  Python
string truthiness: only the empty string is falsy for `str`.
`symbol.split("/")[0]` on a string containing `"/"` is the (nonempty) head
of the split, and `symbol[:-4]` drops the last four characters. -/
def normalize_chars (symbol : List Char) : List Char :=
  if symbol = [] then DEFAULT_SYMBOL.data
  else
    let s := stripChars (symbol.map upperChar)
    if s.contains '/' && endsWithChars s "USDT".data then s
    else
      let s :=
        if !(endsWithChars s "USDT".data) then
          if s.contains '/' then ((splitOnChar '/' s).headD []) ++ "/USDT".data
          else s ++ "/USDT".data
        else s
      if !(s.contains '/') && endsWithChars s "USDT".data then
        (s.take (s.length - 4)) ++ "/USDT".data
      else s

/-- `config.normalize_symbol`. -/
def normalize_symbol (symbol : String) : String :=
  String.mk (normalize_chars symbol.data)

/-- The `self.current_position` dict created in `enter_position`.
`lowest_price = none` models the `float('inf')` seed used for LONG entries;
`profit_taken` is the source's `partial_profit_taken` flag (renamed). -/
structure Position where
  symbol : String
  direction : Direction
  entry_price : ℚ
  original_entry_price : ℚ
  position_size : ℚ
  leverage : ℚ
  invested_amount : ℚ
  target_price : Option ℚ
  stop_loss : Option ℚ
  entry_fee : ℚ
  highest_price : ℚ
  lowest_price : Option ℚ
  trailing_stop_price : Option ℚ
  profit_taken : Bool
  total_fees_paid : ℚ
deriving DecidableEq, Repr

/-- A row appended through `db.insert_virtual_trade` (the fields passed in
`trade_data`; ENTER rows carry `invested_amount`, EXIT rows carry
`realized_pnl` and `exit_reason`). -/
structure TradeRecord where
  action : TradeAction
  symbol : String
  direction : Direction
  price : ℚ
  size : ℚ
  leverage : ℚ
  invested_amount : Option ℚ
  realized_pnl : Option ℚ
  exit_reason : Option String
deriving DecidableEq, Repr

/-- The mutable ledger state of `VirtualPortfolio`: `current_balance`,
`current_position`, and the append-only trade log. -/
structure Portfolio where
  balance : ℚ
  position : Option Position
  trades : List TradeRecord
deriving DecidableEq, Repr

/-- `_apply_slippage`. -/
def apply_slippage (price : ℚ) (direction : Direction) (action : TradeAction) : ℚ :=
  match action, direction with
  | .enterAct, .long => price * (1 + slippage_rate)
  | .enterAct, .short => price * (1 - slippage_rate)
  | .exitAct, .long => price * (1 - slippage_rate)
  | .exitAct, .short => price * (1 + slippage_rate)

/-- `_calculate_position_metrics(current_price, position_size)`: returns
`(position_value, pnl, pnl_percentage)`.  The Python default
`position_size=None` (meaning the full stored size) is the `none` case of
`slice_size`.  The divisions by `position_size` and `entry_price` raise
`ZeroDivisionError` in Python when zero; callers on the claim-relevant paths
guard those cases explicitly (see `exit_position`). -/
def position_metrics (pos? : Option Position) (current_price : ℚ)
    (slice_size? : Option ℚ) : ℚ × ℚ × ℚ :=
  match pos? with
  | none => (0, 0, 0)
  | some pos =>
    let slice_size := slice_size?.getD pos.position_size
    let position_frac := slice_size / pos.position_size
    let invested_amount := pos.invested_amount * position_frac
    let price_change_rate :=
      match pos.direction with
      | .long => (current_price - pos.entry_price) / pos.entry_price
      | .short => (pos.entry_price - current_price) / pos.entry_price
    let leveraged_return_rate := price_change_rate * pos.leverage
    let position_value := invested_amount * (1 + leveraged_return_rate)
    let min_value := invested_amount * (5 / 100)
    let position_value := max position_value min_value
    let pnl := position_value - invested_amount
    let pnl_percentage := if invested_amount > 0 then pnl / invested_amount * 100 else 0
    (position_value, pnl, pnl_percentage)

/-- The `exit_info` dict built by `exit_position` (wall-clock fields omitted;
`fractional_exit` is the source's `partial_exit` flag, `exit_frac` its
`exit_ratio`). -/
structure ExitInfo where
  symbol : String
  direction : Direction
  entry_price : ℚ
  exit_price : ℚ
  original_exit_price : ℚ
  position_size : ℚ
  leverage : ℚ
  invested_amount : ℚ
  realized_pnl : ℚ
  realized_pnl_percentage : ℚ
  exit_reason : String
  exit_fee : ℚ
  total_fees : ℚ
  fractional_exit : Bool
  exit_frac : ℚ
deriving DecidableEq, Repr

/-- `exit_position(exit_price, reason, partial_ratio)` (the close fraction is
named `close_frac` here).  Control flow of the source `try` block:
* no position → `None`, state unchanged;
* a stored `position_size` of zero or a zero `entry_price` raises
  `ZeroDivisionError` inside `_calculate_position_metrics` before any
  mutation; the `except` branch returns `None` with the state unchanged;
* the balance update happens next; the `realized_pnl_percentage` division by
  `invested_amount * partial_ratio` then raises on a zero slice, so that
  `except` path returns `None` with the balance already updated and the
  position and trade log untouched;
* otherwise the EXIT row is appended and the position is scaled down
  (`partial_ratio < 1.0`) or cleared. -/
def exit_position (s : Portfolio) (exit_price : ℚ) (reason : String)
    (close_frac : ℚ) : Portfolio × Option ExitInfo :=
  match s.position with
  | none => (s, none)
  | some pos =>
    if pos.position_size = 0 ∨ pos.entry_price = 0 then (s, none)
    else
      let actual_exit_price := apply_slippage exit_price pos.direction .exitAct
      let exit_position_size := pos.position_size * close_frac
      let m := position_metrics (some pos) actual_exit_price (some exit_position_size)
      let position_value := m.1
      let pnl := m.2.1
      let exit_fee := position_value * trading_fee_rate
      let final_position_value := position_value - exit_fee
      let realized_pnl := pnl - exit_fee
      let s1 : Portfolio := { s with balance := s.balance + final_position_value }
      if pos.invested_amount * close_frac = 0 then (s1, none)
      else
        let info : ExitInfo := {
          symbol := pos.symbol
          direction := pos.direction
          entry_price := pos.entry_price
          exit_price := actual_exit_price
          original_exit_price := exit_price
          position_size := exit_position_size
          leverage := pos.leverage
          invested_amount := pos.invested_amount * close_frac
          realized_pnl := realized_pnl
          realized_pnl_percentage :=
            realized_pnl / (pos.invested_amount * close_frac) * 100
          exit_reason := reason
          exit_fee := exit_fee
          total_fees := pos.total_fees_paid + exit_fee
          fractional_exit := close_frac < 1
          exit_frac := close_frac }
        let row : TradeRecord := {
          action := .exitAct
          symbol := pos.symbol
          direction := pos.direction
          price := actual_exit_price
          size := exit_position_size
          leverage := pos.leverage
          invested_amount := none
          realized_pnl := some realized_pnl
          exit_reason := some reason }
        let s2 : Portfolio := { s1 with trades := s1.trades ++ [row] }
        if close_frac < 1 then
          let pos' : Position := { pos with
            position_size := pos.position_size * (1 - close_frac)
            invested_amount := pos.invested_amount * (1 - close_frac)
            total_fees_paid := pos.total_fees_paid + exit_fee
            profit_taken :=
              if reason = "Partial Take Profit" then true else pos.profit_taken }
          ({ s2 with position := some pos' }, some info)
        else
          ({ s2 with position := none }, some info)

/-- `can_enter_position`: only the minimum-balance floor is checked. -/
def can_enter_position (s : Portfolio) : Bool :=
  if s.balance < min_balance then false else true

/-- Lines 99–155 of `enter_position` — the fresh-entry path after the
existing-position dispatch: the `can_enter_position` check, slippage,
sizing and state creation.  `symbol` is already normalized here.  A zero
fill price raises `ZeroDivisionError` at the sizing division; that `except`
branch returns `False` with no further mutation. -/
def enter_core (s : Portfolio) (symbol : String) (direction : Direction)
    (entry_price leverage : ℚ) (target_price stop_loss : Option ℚ) :
    Portfolio × Bool :=
  if !(can_enter_position s) then (s, false)
  else
    let actual_entry_price := apply_slippage entry_price direction .enterAct
    if actual_entry_price = 0 then (s, false)
    else
      let available_balance := s.balance * (95 / 100)
      let fee_amount := available_balance * trading_fee_rate
      let invested_amount := available_balance - fee_amount
      let position_size := invested_amount * leverage / actual_entry_price
      let pos : Position := {
        symbol := symbol
        direction := direction
        entry_price := actual_entry_price
        original_entry_price := entry_price
        position_size := position_size
        leverage := leverage
        invested_amount := invested_amount
        target_price := target_price
        stop_loss := stop_loss
        entry_fee := fee_amount
        highest_price := if direction = .long then actual_entry_price else 0
        lowest_price := if direction = .short then some actual_entry_price else none
        trailing_stop_price := none
        profit_taken := false
        total_fees_paid := fee_amount }
      let row : TradeRecord := {
        action := .enterAct
        symbol := symbol
        direction := direction
        price := actual_entry_price
        size := position_size
        leverage := leverage
        invested_amount := some invested_amount
        realized_pnl := none
        exit_reason := none }
      ({ balance := s.balance - available_balance
         position := some pos
         trades := s.trades ++ [row] }, true)

/-- `_flip_position`: full close at the new requested price, then a fresh
open.  The source re-enters through `enter_position(..., force_flip=True)`;
with `force_flip` set the existing-position dispatch is skipped, so the call
reduces to the fresh-entry path on the normalized symbol.  After a full close
`self.current_position` is `None`, so the symbol argument comes from
`exit_info['symbol']`; after a failed close it would come from the still-open
position. -/
def flip_position (s : Portfolio) (new_direction : Direction)
    (new_entry_price leverage : ℚ) (target_price stop_loss : Option ℚ) :
    Portfolio × Bool :=
  let r := exit_position s new_entry_price "Position Flip" 1
  match r.2 with
  | none => (r.1, false)
  | some info =>
    let sym :=
      match r.1.position with
      | some p => p.symbol
      | none => info.symbol
    enter_core r.1 (normalize_symbol sym) new_direction new_entry_price leverage
      target_price stop_loss

/-- `enter_position(symbol, direction, entry_price, leverage, target_price,
stop_loss, force_flip)`.  The symbol is normalized first; with an open
position (and `force_flip` unset): same symbol and direction → reject,
same symbol other direction → flip, different symbol → close the old
position at `entry_price` (the result is not checked) and fall through to
the fresh-entry path. -/
def enter_position (s : Portfolio) (symbol : String) (direction : Direction)
    (entry_price leverage : ℚ) (target_price stop_loss : Option ℚ)
    (force_flip : Bool) : Portfolio × Bool :=
  let sym := normalize_symbol symbol
  match s.position with
  | some pos =>
    if force_flip then
      enter_core s sym direction entry_price leverage target_price stop_loss
    else if pos.symbol = sym ∧ pos.direction = direction then (s, false)
    else if pos.symbol = sym then
      flip_position s direction entry_price leverage target_price stop_loss
    else
      let r := exit_position s entry_price "Position Switch" 1
      enter_core r.1 sym direction entry_price leverage target_price stop_loss
  | none =>
    enter_core s sym direction entry_price leverage target_price stop_loss

/-- Python `current_price < self.current_position['lowest_price']` where the
stored low watermark may be the `float('inf')` seed (`none` here). -/
def below_lowest (price : ℚ) (lowest : Option ℚ) : Bool :=
  match lowest with
  | none => true
  | some l => decide (price < l)

/-- `update_trailing_stop(current_price)`: ratchet the favorable watermark
and recompute the trailing stop from it. -/
def update_trailing_stop (s : Portfolio) (current_price : ℚ) : Portfolio × Bool :=
  match s.position with
  | none => (s, false)
  | some pos =>
    match pos.direction with
    | .long =>
      if pos.highest_price < current_price then
        ({ s with position := some { pos with
             highest_price := current_price
             trailing_stop_price := some (current_price * (1 - trailing_stop_frac)) } },
         true)
      else (s, false)
    | .short =>
      if below_lowest current_price pos.lowest_price then
        ({ s with position := some { pos with
             lowest_price := some current_price
             trailing_stop_price := some (current_price * (1 + trailing_stop_frac)) } },
         true)
      else (s, false)

/-- A sequence of `update_trailing_stop` calls, as the monitor's loop issues
them each tick with the freshly fetched price. -/
def run_trailing (s : Portfolio) (prices : List ℚ) : Portfolio :=
  prices.foldl (fun t p => (update_trailing_stop t p).1) s

/-- The trailing-stop price currently stored on the open position, if any. -/
def trailing_of (s : Portfolio) : Option ℚ :=
  match s.position with
  | none => none
  | some pos => pos.trailing_stop_price

/-- One externally issued ledger mutation: a public `enter_position` call
(`force_flip` unset) or an `exit_position` call. -/
inductive LedgerOp
| enterOp (symbol : String) (direction : Direction) (entry_price leverage : ℚ)
    (target_price stop_loss : Option ℚ)
| exitOp (exit_price : ℚ) (reason : String) (close_frac : ℚ)
deriving DecidableEq, Repr

/-- Execute one ledger operation, keeping the resulting state. -/
def apply_op (s : Portfolio) (op : LedgerOp) : Portfolio :=
  match op with
  | .enterOp symbol d entry_price leverage target_price stop_loss =>
    (enter_position s symbol d entry_price leverage target_price stop_loss false).1
  | .exitOp exit_price reason close_frac =>
    (exit_position s exit_price reason close_frac).1

/-- Execute a sequence of ledger operations. -/
def run_ops (s : Portfolio) (ops : List LedgerOp) : Portfolio :=
  ops.foldl apply_op s

/-- An exit call's close fraction is an actual fraction of the position
(the program itself only ever passes `1.0` or `partial_take_profit_ratio`,
i.e. `0.5`). -/
def frac_ok : LedgerOp → Prop
| .enterOp _ _ _ _ _ _ => True
| .exitOp _ _ close_frac => 0 ≤ close_frac ∧ close_frac ≤ 1

/- ---------------------------------------------------------------------
   Signal engine (src/market_analyzer.py)
   --------------------------------------------------------------------- -/

/-- One detected signal dict from `market_analyzer` (`sig_type` is the
source's `type` key; the formatted `description` string carries no extra
information and is omitted). -/
structure TradeSignal where
  symbol : String
  sig_type : String
  strength : String
  value : ℚ
  direction : String
  priority : ℕ
deriving DecidableEq, Repr

/-- `safe_get_last_value` in `calculate_all_indicators`: walk the series
from its end and return the first value that is not `None`. -/
def safe_get_last_value : List (Option ℚ) → Option ℚ
| [] => none
| v :: rest =>
  match safe_get_last_value rest with
  | some w => some w
  | none => v

/-- `_detect_macd_signals(indicators, df, symbol)`.  The `indicators` dict
passed in holds the scalar last values of the MACD and signal series
(`current_indicators` built by `safe_get_last_value`), so both the
`macd_series` `None`-check and `current_macd`/`current_signal` read the same
scalars.  Python float truthiness: `if current_macd and current_signal:`
skips the comparison when either value is `None` or exactly `0.0`. -/
def detect_macd_signals (indicators_macd indicators_macd_signal : Option ℚ)
    (df_len : ℕ) (symbol : String) : List TradeSignal :=
  if df_len < 3 then []
  else if indicators_macd = none ∨ indicators_macd_signal = none then []
  else
    match indicators_macd, indicators_macd_signal with
    | some current_macd, some current_signal =>
      if current_macd ≠ 0 ∧ current_signal ≠ 0 then
        if current_signal < current_macd then
          [{ symbol := symbol, sig_type := "MACD_BULLISH", strength := "MEDIUM",
             value := current_macd - current_signal, direction := "BUY", priority := 2 }]
        else if current_macd < current_signal then
          [{ symbol := symbol, sig_type := "MACD_BEARISH", strength := "MEDIUM",
             value := current_signal - current_macd, direction := "SELL", priority := 2 }]
        else []
      else []
    | _, _ => []

/-- `_detect_macd_signals` fed from the indicator time series exactly as
`calculate_all_indicators` builds `current_indicators` (the last valid
sample of each series). -/
def macd_crossover_signals (macd_series macd_signal_series : List (Option ℚ))
    (df_len : ℕ) (symbol : String) : List TradeSignal :=
  detect_macd_signals (safe_get_last_value macd_series)
    (safe_get_last_value macd_signal_series) df_len symbol

/-- `_detect_moving_average_signals(indicators, current_price, symbol)`.
`if not all([ma_20, ma_50])` drops the `None` and exactly-zero cases
(Python truthiness again). -/
def detect_moving_average_signals (indicators_ma_20 indicators_ma_50 : Option ℚ)
    (current_price : ℚ) (symbol : String) : List TradeSignal :=
  match indicators_ma_20, indicators_ma_50 with
  | some ma_20, some ma_50 =>
    if ma_20 ≠ 0 ∧ ma_50 ≠ 0 then
      if ma_50 < ma_20 ∧ ma_20 < current_price then
        [{ symbol := symbol, sig_type := "GOLDEN_CROSS",
           strength := if 2/100 < (ma_20 - ma_50) / ma_50 then "HIGH" else "MEDIUM",
           value := (ma_20 - ma_50) / ma_50 * 100, direction := "BUY",
           priority := if 2/100 < (ma_20 - ma_50) / ma_50 then 3 else 2 }]
      else if ma_20 < ma_50 ∧ current_price < ma_20 then
        [{ symbol := symbol, sig_type := "DEAD_CROSS",
           strength := if 2/100 < (ma_50 - ma_20) / ma_20 then "HIGH" else "MEDIUM",
           value := (ma_50 - ma_20) / ma_20 * 100, direction := "SELL",
           priority := if 2/100 < (ma_50 - ma_20) / ma_20 then 3 else 2 }]
      else []
    else []
  | _, _ => []

/-- Modelled from the spec (for the refinement comparison of claim C8 only):
a crossover in the spec's sense is a sign flip of the (fast − slow) gap
between the last two samples — non-positive→positive bullish, the reverse
bearish.  The source detectors are compared against this predicate. -/
def sign_flip_spec (prev_gap last_gap : ℚ) : Prop :=
  (prev_gap ≤ 0 ∧ 0 < last_gap) ∨ (0 < prev_gap ∧ last_gap ≤ 0)

instance (a b : ℚ) : Decidable (sign_flip_spec a b) := by
  unfold sign_flip_spec
  infer_instance

/- ---------------------------------------------------------------------
   Invariant predicates and concrete states used by the theorems below
   --------------------------------------------------------------------- -/

/-- A reachable LONG-position shape: the trailing stop, when set, is the
high watermark scaled by `1 - trailing_stop_ratio`, exactly as
`update_trailing_stop` writes it (positions fresh from `enter_position`
carry `none`). -/
def long_ok (s : Portfolio) : Prop :=
  ∃ pos, s.position = some pos ∧ pos.direction = Direction.long ∧
    (pos.trailing_stop_price = none ∨
     pos.trailing_stop_price = some (pos.highest_price * (1 - trailing_stop_frac)))

/-- The SHORT counterpart of `long_ok`: the trailing stop, when set, is the
low watermark scaled by `1 + trailing_stop_ratio`. -/
def short_ok (s : Portfolio) : Prop :=
  ∃ pos, s.position = some pos ∧ pos.direction = Direction.short ∧
    (pos.trailing_stop_price = none ∨
     ∃ l, pos.lowest_price = some l ∧
       pos.trailing_stop_price = some (l * (1 + trailing_stop_frac)))

/-- The ledger data-model invariant: a non-negative cash balance and a
non-negative invested margin on any open position. -/
def ledger_inv (s : Portfolio) : Prop :=
  0 ≤ s.balance ∧ ∀ pos, s.position = some pos → 0 ≤ pos.invested_amount

/-- A small open LONG position on instrument A used as a concrete input. -/
def cex_pos : Position :=
  { symbol := "A/USDT", direction := .long, entry_price := 100,
    original_entry_price := 100, position_size := 1, leverage := 1,
    invested_amount := 50, target_price := none, stop_loss := none,
    entry_fee := 0, highest_price := 100, lowest_price := none,
    trailing_stop_price := none, profit_taken := false, total_fees_paid := 0 }

/-- A ledger whose balance (10) is below the minimum floor while a position
on a different instrument is open. -/
def cex_state : Portfolio :=
  { balance := 10, position := some cex_pos, trades := [] }

/-- A concrete open LONG position used as a witness input. -/
def wit_pos_long : Position :=
  { symbol := "SOL/USDT", direction := .long, entry_price := 100,
    original_entry_price := 100, position_size := 2, leverage := 2,
    invested_amount := 100, target_price := none, stop_loss := none,
    entry_fee := 0, highest_price := 100, lowest_price := none,
    trailing_stop_price := none, profit_taken := false, total_fees_paid := 0 }

/-- A ledger holding `wit_pos_long` with a cash balance of 1000. -/
def wit_state_long : Portfolio :=
  { balance := 1000, position := some wit_pos_long, trades := [] }

/-- A concrete open SHORT position used as a witness input. -/
def wit_pos_short : Position :=
  { symbol := "SOL/USDT", direction := .short, entry_price := 100,
    original_entry_price := 100, position_size := 2, leverage := 2,
    invested_amount := 100, target_price := none, stop_loss := none,
    entry_fee := 0, highest_price := 0, lowest_price := some 100,
    trailing_stop_price := none, profit_taken := false, total_fees_paid := 0 }

/-- A ledger holding `wit_pos_short` with a cash balance of 1000. -/
def wit_state_short : Portfolio :=
  { balance := 1000, position := some wit_pos_short, trades := [] }

/- ---------------------------------------------------------------------
   Theorems
   --------------------------------------------------------------------- -/

lemma long_trailing_step (s : Portfolio) (p : ℚ) (h : long_ok s) :
    long_ok ((update_trailing_stop s p).1) ∧
    (∀ t, trailing_of s = some t →
      ∃ u, trailing_of ((update_trailing_stop s p).1) = some u ∧ t ≤ u) := by
  obtain ⟨pos, hpos, hdir, hts⟩ := h
  unfold update_trailing_stop
  rw [hpos]
  simp only [hdir]
  by_cases hlt : pos.highest_price < p
  · rw [if_pos hlt]
    constructor
    · exact ⟨_, rfl, rfl, Or.inr rfl⟩
    · intro t ht
      simp only [trailing_of, hpos] at ht
      rcases hts with hnone | hsome
      · rw [hnone] at ht; exact absurd ht (by simp)
      · rw [hsome] at ht
        refine ⟨p * (1 - trailing_stop_frac), rfl, ?_⟩
        have ht' : t = pos.highest_price * (1 - trailing_stop_frac) :=
          Option.some_injective _ ht.symm
        rw [ht']
        have hc : (0:ℚ) ≤ 1 - trailing_stop_frac := by
          unfold trailing_stop_frac; norm_num
        exact mul_le_mul_of_nonneg_right (le_of_lt hlt) hc
  · rw [if_neg hlt]
    refine ⟨⟨pos, hpos, hdir, hts⟩, ?_⟩
    intro t ht
    exact ⟨t, ht, le_refl t⟩

lemma short_trailing_step (s : Portfolio) (p : ℚ) (h : short_ok s) :
    short_ok ((update_trailing_stop s p).1) ∧
    (∀ t, trailing_of s = some t →
      ∃ u, trailing_of ((update_trailing_stop s p).1) = some u ∧ u ≤ t) := by
  obtain ⟨pos, hpos, hdir, hts⟩ := h
  unfold update_trailing_stop
  rw [hpos]
  simp only [hdir]
  by_cases hlt : below_lowest p pos.lowest_price = true
  · rw [if_pos hlt]
    constructor
    · exact ⟨_, rfl, rfl, Or.inr ⟨p, rfl, rfl⟩⟩
    · intro t ht
      simp only [trailing_of, hpos] at ht
      rcases hts with hnone | ⟨l, hlow, hsome⟩
      · rw [hnone] at ht; exact absurd ht (by simp)
      · rw [hsome] at ht
        refine ⟨p * (1 + trailing_stop_frac), rfl, ?_⟩
        have ht' : t = l * (1 + trailing_stop_frac) :=
          Option.some_injective _ ht.symm
        rw [ht']
        have hpl : p < l := by
          unfold below_lowest at hlt
          rw [hlow] at hlt
          exact of_decide_eq_true hlt
        have hc : (0:ℚ) ≤ 1 + trailing_stop_frac := by
          unfold trailing_stop_frac; norm_num
        exact mul_le_mul_of_nonneg_right (le_of_lt hpl) hc
  · rw [if_neg hlt]
    refine ⟨⟨pos, hpos, hdir, hts⟩, ?_⟩
    intro t ht
    exact ⟨t, ht, le_refl t⟩

lemma long_trailing_run (prices : List ℚ) (s : Portfolio) (h : long_ok s) :
    long_ok (run_trailing s prices) ∧
    (∀ t, trailing_of s = some t →
      ∃ u, trailing_of (run_trailing s prices) = some u ∧ t ≤ u) := by
  induction prices generalizing s with
  | nil => exact ⟨h, fun t ht => ⟨t, ht, le_refl t⟩⟩
  | cons p ps ih =>
    have hstep := long_trailing_step s p h
    have hrest := ih _ hstep.1
    refine ⟨hrest.1, fun t ht => ?_⟩
    obtain ⟨u, hu, htu⟩ := hstep.2 t ht
    obtain ⟨v, hv, huv⟩ := hrest.2 u hu
    exact ⟨v, hv, le_trans htu huv⟩

lemma short_trailing_run (prices : List ℚ) (s : Portfolio) (h : short_ok s) :
    short_ok (run_trailing s prices) ∧
    (∀ t, trailing_of s = some t →
      ∃ u, trailing_of (run_trailing s prices) = some u ∧ u ≤ t) := by
  induction prices generalizing s with
  | nil => exact ⟨h, fun t ht => ⟨t, ht, le_refl t⟩⟩
  | cons p ps ih =>
    have hstep := short_trailing_step s p h
    have hrest := ih _ hstep.1
    refine ⟨hrest.1, fun t ht => ?_⟩
    obtain ⟨u, hu, htu⟩ := hstep.2 t ht
    obtain ⟨v, hv, huv⟩ := hrest.2 u hu
    exact ⟨v, hv, le_trans huv htu⟩

/-- Claim C4: across any sequence of `update_trailing_stop` calls with
arbitrary price inputs, a LONG position's trailing-stop price, once set,
never decreases, and a SHORT position's never increases (starting from any
reachable trailing-stop shape, e.g. a fresh position). -/
theorem C4_trailing_stop_monotone :
    (∀ (s : Portfolio) (prices more : List ℚ) (t u : ℚ), long_ok s →
       trailing_of (run_trailing s prices) = some t →
       trailing_of (run_trailing s (prices ++ more)) = some u → t ≤ u) ∧
    (∀ (s : Portfolio) (prices more : List ℚ) (t u : ℚ), short_ok s →
       trailing_of (run_trailing s prices) = some t →
       trailing_of (run_trailing s (prices ++ more)) = some u → u ≤ t) := by
  constructor
  · intro s prices more t u h hmid happ
    rw [run_trailing, List.foldl_append, ← run_trailing, ← run_trailing] at happ
    have hmid_ok := (long_trailing_run prices s h).1
    obtain ⟨v, hv, htv⟩ := (long_trailing_run more _ hmid_ok).2 t hmid
    rw [happ] at hv
    rwa [Option.some_injective _ hv]
  · intro s prices more t u h hmid happ
    rw [run_trailing, List.foldl_append, ← run_trailing, ← run_trailing] at happ
    have hmid_ok := (short_trailing_run prices s h).1
    obtain ⟨v, hv, htv⟩ := (short_trailing_run more _ hmid_ok).2 t hmid
    rw [happ] at hv
    rwa [Option.some_injective _ hv]

lemma exit_preserves_inv (s : Portfolio) (price : ℚ) (reason : String) (frac : ℚ)
    (h : ledger_inv s) (h0 : 0 ≤ frac) (h1 : frac ≤ 1) :
    ledger_inv (exit_position s price reason frac).1 := by
  obtain ⟨hb, hp⟩ := h
  rcases hso : s.position with _ | pos
  · unfold exit_position
    rw [hso]
    exact ⟨hb, hp⟩
  · unfold exit_position
    rw [hso]
    by_cases hsz : pos.position_size = 0
    · simp only [hsz, eq_self_iff_true, true_or, if_true]
      exact ⟨hb, hp⟩
    · by_cases hen : pos.entry_price = 0
      · simp only [hen, eq_self_iff_true, or_true, if_true]
        exact ⟨hb, hp⟩
      · simp only [hsz, hen, or_self, if_false, false_or, or_false]
        have hinv : 0 ≤ pos.invested_amount := hp pos hso
        have hfrac : pos.position_size * frac / pos.position_size = frac :=
          mul_div_cancel_left₀ frac hsz
        set V := (position_metrics (some pos)
            (apply_slippage price pos.direction TradeAction.exitAct)
            (some (pos.position_size * frac))).1 with hV
        have hV0 : 0 ≤ V := by
          rw [hV]
          cases hd : pos.direction <;>
            simp only [position_metrics, hd, Option.getD_some, hfrac] <;>
            exact le_trans (mul_nonneg (mul_nonneg hinv h0) (by norm_num))
              (le_max_right _ _)
        have hfin : 0 ≤ V - V * trading_fee_rate := by
          simp only [trading_fee_rate]; nlinarith
        have hbal : 0 ≤ s.balance + (V - V * trading_fee_rate) :=
          add_nonneg hb hfin
        split_ifs with h2 h3 h4
        · refine ⟨hbal, ?_⟩
          intro q hq
          injection hq with hq'
          rw [← hq']
          exact hinv
        · refine ⟨hbal, ?_⟩
          intro q hq
          injection hq with hq'
          rw [← hq']
          exact mul_nonneg hinv (by linarith)
        · refine ⟨hbal, ?_⟩
          intro q hq
          injection hq with hq'
          rw [← hq']
          exact mul_nonneg hinv (by linarith)
        · refine ⟨hbal, ?_⟩
          intro q hq
          exact Option.noConfusion hq

lemma enter_core_preserves_inv (s : Portfolio) (sym : String) (d : Direction)
    (p lev : ℚ) (t st : Option ℚ) (h : ledger_inv s) :
    ledger_inv (enter_core s sym d p lev t st).1 := by
  obtain ⟨hb, hp⟩ := h
  unfold enter_core
  dsimp only
  split_ifs with h1 h2 h3 h4 <;>
    first
    | exact ⟨hb, hp⟩
    | · refine ⟨?_, ?_⟩
        · show (0:ℚ) ≤ s.balance - s.balance * (95 / 100)
          linarith
        · intro q hq
          injection hq with hq'
          rw [← hq']
          show (0:ℚ) ≤ s.balance * (95 / 100) - s.balance * (95 / 100) * trading_fee_rate
          simp only [trading_fee_rate]
          nlinarith

lemma flip_preserves_inv (s : Portfolio) (d : Direction) (p lev : ℚ)
    (t st : Option ℚ) (h : ledger_inv s) :
    ledger_inv (flip_position s d p lev t st).1 := by
  unfold flip_position
  dsimp only
  have hx := exit_preserves_inv s p "Position Flip" 1 h (by norm_num) (by norm_num)
  cases hr : (exit_position s p "Position Flip" 1).2 with
  | none => exact hx
  | some info => exact enter_core_preserves_inv _ _ _ _ _ _ _ hx

lemma enter_preserves_inv (s : Portfolio) (sym : String) (d : Direction)
    (p lev : ℚ) (t st : Option ℚ) (ff : Bool) (h : ledger_inv s) :
    ledger_inv (enter_position s sym d p lev t st ff).1 := by
  unfold enter_position
  rcases hso : s.position with _ | pos
  · exact enter_core_preserves_inv _ _ _ _ _ _ _ h
  · dsimp only
    split_ifs with h1 h2 h3
    · exact enter_core_preserves_inv _ _ _ _ _ _ _ h
    · exact h
    · exact flip_preserves_inv _ _ _ _ _ _ h
    · exact enter_core_preserves_inv _ _ _ _ _ _ _
        (exit_preserves_inv s p "Position Switch" 1 h (by norm_num) (by norm_num))

lemma apply_op_preserves_inv (s : Portfolio) (op : LedgerOp)
    (hf : frac_ok op) (h : ledger_inv s) : ledger_inv (apply_op s op) := by
  cases op with
  | enterOp sym d p lev t st => exact enter_preserves_inv _ _ _ _ _ _ _ _ h
  | exitOp p reason frac => exact exit_preserves_inv _ _ _ _ h hf.1 hf.2

lemma run_ops_preserves_inv (ops : List LedgerOp) (s : Portfolio)
    (hf : ∀ op ∈ ops, frac_ok op) (h : ledger_inv s) :
    ledger_inv (run_ops s ops) := by
  induction ops generalizing s with
  | nil => exact h
  | cons op rest ih =>
    exact ih _ (fun o ho => hf o (List.mem_cons_of_mem _ ho))
      (apply_op_preserves_inv s op (hf op (List.mem_cons_self _ _)) h)

/-- Claim C7: starting from a non-negative initial balance, no sequence of
`enter_position` / `exit_position` calls (exit close fractions being actual
fractions in [0,1], as the program's own call sites use) can drive the cash
balance negative. -/
theorem C7_balance_never_negative (initial_balance : ℚ) (ops : List LedgerOp)
    (hb : 0 ≤ initial_balance) (hf : ∀ op ∈ ops, frac_ok op) :
    0 ≤ (run_ops { balance := initial_balance, position := none, trades := [] } ops).balance := by
  refine (run_ops_preserves_inv ops _ hf ⟨hb, ?_⟩).1
  intro q hq
  exact Option.noConfusion hq

lemma exit_full_none_parts (s : Portfolio) (pos : Position) (price : ℚ) (rr : String)
    (hpos : s.position = some pos)
    (hn : (exit_position s price rr 1).2 = none) :
    (exit_position s price rr 1).1.balance = s.balance ∧
    (exit_position s price rr 1).1.position = s.position ∧
    (exit_position s price rr 1).1.trades = s.trades := by
  unfold exit_position at hn ⊢
  rw [hpos] at hn ⊢
  dsimp only at hn ⊢
  by_cases hg : pos.position_size = 0 ∨ pos.entry_price = 0
  · rw [if_pos hg]
    exact ⟨rfl, hpos, rfl⟩
  · rw [if_neg hg] at hn ⊢
    by_cases hz : pos.invested_amount * 1 = 0
    · rw [if_pos hz]
      have hi0 : pos.invested_amount = 0 := by rwa [mul_one] at hz
      refine ⟨?_, rfl, rfl⟩
      show s.balance + _ = s.balance
      cases hd : pos.direction <;>
        simp [position_metrics, hd, hi0]
    · rw [if_neg hz] at hn
      rw [if_neg (lt_irrefl (1:ℚ))] at hn
      exact absurd hn (by simp)

lemma exit_full_some_parts (s : Portfolio) (pos : Position) (price : ℚ) (rr : String)
    (info : ExitInfo) (hpos : s.position = some pos)
    (hs : (exit_position s price rr 1).2 = some info) :
    (exit_position s price rr 1).1.balance = s.balance +
      ((position_metrics (some pos)
          (apply_slippage price pos.direction TradeAction.exitAct)
          (some (pos.position_size * 1))).1
        - (position_metrics (some pos)
          (apply_slippage price pos.direction TradeAction.exitAct)
          (some (pos.position_size * 1))).1 * trading_fee_rate) ∧
    (exit_position s price rr 1).1.position = none ∧
    (exit_position s price rr 1).1.trades.length = s.trades.length + 1 ∧
    info.symbol = pos.symbol := by
  unfold exit_position at hs ⊢
  rw [hpos] at hs ⊢
  dsimp only at hs ⊢
  by_cases hg : pos.position_size = 0 ∨ pos.entry_price = 0
  · rw [if_pos hg] at hs
    exact absurd hs (by simp)
  · rw [if_neg hg] at hs ⊢
    by_cases hz : pos.invested_amount * 1 = 0
    · rw [if_pos hz] at hs
      exact absurd hs (by simp)
    · rw [if_neg hz] at hs ⊢
      rw [if_neg (lt_irrefl (1:ℚ))] at hs ⊢
      refine ⟨rfl, rfl, by simp, ?_⟩
      injection hs with hs'
      rw [← hs']

lemma exit_full_none_iff (s : Portfolio) (pos : Position) (price : ℚ) (rr : String)
    (hpos : s.position = some pos) :
    ((exit_position s price rr 1).2 = none ↔
      (pos.position_size = 0 ∨ pos.entry_price = 0 ∨ pos.invested_amount = 0)) := by
  unfold exit_position
  rw [hpos]
  dsimp only
  by_cases hg : pos.position_size = 0 ∨ pos.entry_price = 0
  · rw [if_pos hg]
    simp only [eq_self_iff_true, true_iff]
    tauto
  · rw [if_neg hg]
    by_cases hz : pos.invested_amount * 1 = 0
    · rw [if_pos hz]
      rw [mul_one] at hz
      simp only [eq_self_iff_true, true_iff]
      tauto
    · rw [if_neg hz]
      rw [if_neg (lt_irrefl (1:ℚ))]
      rw [mul_one] at hz
      simp only []
      constructor
      · intro hc
        exact absurd hc (by simp)
      · intro hc
        tauto

lemma enter_core_trades_len (s : Portfolio) (sym : String) (d : Direction)
    (p lev : ℚ) (t st : Option ℚ)
    (hsucc : (enter_core s sym d p lev t st).2 = true) :
    (enter_core s sym d p lev t st).1.trades.length = s.trades.length + 1 := by
  unfold enter_core at hsucc ⊢
  dsimp only at hsucc ⊢
  split_ifs at hsucc ⊢ with h1 h2 <;> simp_all

lemma enter_core_balance_congr (s s' : Portfolio) (h : s.balance = s'.balance)
    (hp : s.position = s'.position)
    (sym : String) (d : Direction) (p lev : ℚ) (t st : Option ℚ) :
    (enter_core s sym d p lev t st).1.balance = (enter_core s' sym d p lev t st).1.balance ∧
    (enter_core s sym d p lev t st).1.position = (enter_core s' sym d p lev t st).1.position ∧
    (enter_core s sym d p lev t st).2 = (enter_core s' sym d p lev t st).2 := by
  unfold enter_core can_enter_position
  dsimp only
  rw [h]
  split_ifs <;>
    first
    | exact ⟨rfl, rfl, rfl⟩
    | exact ⟨h, hp, rfl⟩

/-- Claim C6: an opposite-side `enter_position` call (a flip) yields the
same final balance and the same final position as a manual full
`exit_position` at the same price followed by `enter_position` with
identical parameters; a successful flip appends exactly two trade records
(close + open), never a netted one. -/
theorem C6_flip_equals_close_then_open (s : Portfolio) (pos : Position)
    (symbol : String) (d : Direction) (price leverage : ℚ)
    (target_price stop_loss : Option ℚ) (reason : String)
    (hpos : s.position = some pos)
    (hsym : normalize_symbol symbol = pos.symbol)
    (hnorm : normalize_symbol pos.symbol = pos.symbol)
    (hdir : pos.direction ≠ d) :
    ((enter_position s symbol d price leverage target_price stop_loss false).1.balance
      = (enter_position (exit_position s price reason 1).1 symbol d price leverage
          target_price stop_loss false).1.balance) ∧
    ((enter_position s symbol d price leverage target_price stop_loss false).1.position
      = (enter_position (exit_position s price reason 1).1 symbol d price leverage
          target_price stop_loss false).1.position) ∧
    ((enter_position s symbol d price leverage target_price stop_loss false).2
      = (enter_position (exit_position s price reason 1).1 symbol d price leverage
          target_price stop_loss false).2) ∧
    ((enter_position s symbol d price leverage target_price stop_loss false).2 = true →
      (enter_position s symbol d price leverage target_price stop_loss false).1.trades.length
        = s.trades.length + 2) := by
  have hL : enter_position s symbol d price leverage target_price stop_loss false
      = flip_position s d price leverage target_price stop_loss := by
    unfold enter_position
    rw [hpos]
    dsimp only
    simp only [Bool.false_eq_true, if_false]
    rw [if_neg (show ¬(pos.symbol = normalize_symbol symbol ∧ pos.direction = d) from
      fun hc => hdir hc.2), if_pos hsym.symm]
  by_cases hn : (exit_position s price "Position Flip" 1).2 = none
  · have hnr : (exit_position s price reason 1).2 = none := by
      rw [exit_full_none_iff s pos price reason hpos]
      exact (exit_full_none_iff s pos price "Position Flip" hpos).mp hn
    obtain ⟨hb1, hp1, ht1⟩ := exit_full_none_parts s pos price "Position Flip" hpos hn
    obtain ⟨hb2, hp2, ht2⟩ := exit_full_none_parts s pos price reason hpos hnr
    have hflip : flip_position s d price leverage target_price stop_loss
        = ((exit_position s price "Position Flip" 1).1, false) := by
      unfold flip_position
      dsimp only
      rw [hn]
    have hRm : enter_position (exit_position s price reason 1).1 symbol d price leverage
          target_price stop_loss false
        = flip_position (exit_position s price reason 1).1 d price leverage
          target_price stop_loss := by
      unfold enter_position
      rw [hp2.trans hpos]
      dsimp only
      simp only [Bool.false_eq_true, if_false]
      rw [if_neg (show ¬(pos.symbol = normalize_symbol symbol ∧ pos.direction = d) from
        fun hc => hdir hc.2), if_pos hsym.symm]
    have hn2 : (exit_position (exit_position s price reason 1).1 price "Position Flip" 1).2
        = none := by
      rw [exit_full_none_iff _ pos price _ (hp2.trans hpos)]
      exact (exit_full_none_iff s pos price "Position Flip" hpos).mp hn
    obtain ⟨hb3, hp3, ht3⟩ :=
      exit_full_none_parts _ pos price "Position Flip" (hp2.trans hpos) hn2
    have hflip2 : flip_position (exit_position s price reason 1).1 d price leverage
          target_price stop_loss
        = ((exit_position (exit_position s price reason 1).1 price "Position Flip" 1).1,
           false) := by
      unfold flip_position
      dsimp only
      rw [hn2]
    rw [hL, hflip, hRm, hflip2]
    refine ⟨?_, ?_, rfl, ?_⟩
    · rw [hb1, hb3, hb2]
    · rw [hp1, hp3, hp2]
    · intro hc
      exact absurd hc (by simp)
  · obtain ⟨info, hsome⟩ : ∃ i, (exit_position s price "Position Flip" 1).2 = some i := by
      cases hx : (exit_position s price "Position Flip" 1).2 with
      | none => exact absurd hx hn
      | some i => exact ⟨i, rfl⟩
    have hnr : ¬(exit_position s price reason 1).2 = none := by
      rw [exit_full_none_iff s pos price reason hpos]
      exact fun hc => hn ((exit_full_none_iff s pos price "Position Flip" hpos).mpr hc)
    obtain ⟨info2, hsome2⟩ : ∃ i, (exit_position s price reason 1).2 = some i := by
      cases hx : (exit_position s price reason 1).2 with
      | none => exact absurd hx hnr
      | some i => exact ⟨i, rfl⟩
    obtain ⟨hb1, hp1, ht1, hsy1⟩ :=
      exit_full_some_parts s pos price "Position Flip" info hpos hsome
    obtain ⟨hb2, hp2, ht2, hsy2⟩ :=
      exit_full_some_parts s pos price reason info2 hpos hsome2
    have hflip : flip_position s d price leverage target_price stop_loss
        = enter_core (exit_position s price "Position Flip" 1).1
            (normalize_symbol info.symbol) d price leverage target_price stop_loss := by
      unfold flip_position
      dsimp only
      rw [hsome]
      dsimp only
      rw [hp1]
    have hRm : enter_position (exit_position s price reason 1).1 symbol d price leverage
          target_price stop_loss false
        = enter_core (exit_position s price reason 1).1 (normalize_symbol symbol) d price
          leverage target_price stop_loss := by
      unfold enter_position
      rw [hp2]
    rw [hL, hflip, hRm, hsy1, hnorm, hsym]
    have hcong := enter_core_balance_congr (exit_position s price "Position Flip" 1).1
        (exit_position s price reason 1).1 (by rw [hb1, hb2]) (by rw [hp1, hp2])
        pos.symbol d price leverage target_price stop_loss
    refine ⟨hcong.1, hcong.2.1, hcong.2.2, ?_⟩
    intro hsucc
    have hlen := enter_core_trades_len (exit_position s price "Position Flip" 1).1
      pos.symbol d price leverage target_price stop_loss hsucc
    rw [hlen, ht1]

/-- Claim C3: every successful fresh entry fills at the requested price
shifted by the slippage fraction against the trader (up for LONG, down for
SHORT), uses available capital = balance × 0.95, charges an entry fee of
available × fee rate, invests margin = available − fee, sizes the position
as margin × leverage / fill, and decreases the balance by the full
available-capital amount; the resulting ledger state is exactly the record
built from those formulas. -/
theorem C3_fresh_entry (s : Portfolio) (symbol : String) (d : Direction)
    (entry_price leverage : ℚ) (target_price stop_loss : Option ℚ)
    (fill available fee invested : ℚ)
    (hpos : s.position = none)
    (hbal : min_balance ≤ s.balance)
    (hfill : fill = (match d with
      | .long => entry_price * (1 + slippage_rate)
      | .short => entry_price * (1 - slippage_rate)))
    (hfill0 : fill ≠ 0)
    (havail : available = s.balance * (95 / 100))
    (hfee : fee = available * trading_fee_rate)
    (hinv : invested = available - fee) :
    (enter_position s symbol d entry_price leverage target_price stop_loss false)
      = ({ balance := s.balance - available,
           position := some {
             symbol := normalize_symbol symbol
             direction := d
             entry_price := fill
             original_entry_price := entry_price
             position_size := invested * leverage / fill
             leverage := leverage
             invested_amount := invested
             target_price := target_price
             stop_loss := stop_loss
             entry_fee := fee
             highest_price := if d = .long then fill else 0
             lowest_price := if d = .short then some fill else none
             trailing_stop_price := none
             profit_taken := false
             total_fees_paid := fee }
           trades := s.trades ++ [{
             action := .enterAct
             symbol := normalize_symbol symbol
             direction := d
             price := fill
             size := invested * leverage / fill
             leverage := leverage
             invested_amount := some invested
             realized_pnl := none
             exit_reason := none }] },
         true) := by
  subst hinv
  subst hfee
  subst havail
  subst hfill
  have hce : can_enter_position s = true := by
    unfold can_enter_position
    rw [if_neg (not_lt.mpr hbal)]
  unfold enter_position
  rw [hpos]
  cases d <;>
    simp only [enter_core, hce, Bool.not_true, Bool.false_eq_true, if_false,
      apply_slippage] <;>
    rw [if_neg hfill0]

/-- Claim C5: calling `enter_position` with the same instrument and the
same side as the open position returns `false` and leaves the whole ledger
state — balance, position and trade log — untouched. -/
theorem C5_same_position_noop (s : Portfolio) (pos : Position) (symbol : String)
    (entry_price leverage : ℚ) (target_price stop_loss : Option ℚ)
    (hpos : s.position = some pos)
    (hsym : pos.symbol = normalize_symbol symbol) :
    enter_position s symbol pos.direction entry_price leverage target_price stop_loss false
      = (s, false) := by
  unfold enter_position
  rw [hpos]
  simp [hsym]

/-- Claim C10: exiting any slice (close fraction in (0,1]) of a position
with positive invested margin — and the nonzero size and entry price every
`enter_position`-created position has — strictly increases the cash
balance: the 5%-of-margin floor and the sub-100% fee rate keep the credited
`slice value − exit fee` strictly positive even on a maximal loss. -/
theorem C10_exit_strictly_credits (s : Portfolio) (pos : Position) (exit_price : ℚ)
    (reason : String) (close_frac : ℚ)
    (hpos : s.position = some pos)
    (hinv : 0 < pos.invested_amount)
    (hsize : pos.position_size ≠ 0)
    (hentry : pos.entry_price ≠ 0)
    (h0 : 0 < close_frac) (h1 : close_frac ≤ 1) :
    s.balance < (exit_position s exit_price reason close_frac).1.balance := by
  unfold exit_position
  rw [hpos]
  simp only [hsize, hentry, or_self, if_false, false_or, or_false]
  set V := (position_metrics (some pos)
      (apply_slippage exit_price pos.direction TradeAction.exitAct)
      (some (pos.position_size * close_frac))).1 with hV
  have hfrac : pos.position_size * close_frac / pos.position_size = close_frac :=
    mul_div_cancel_left₀ close_frac hsize
  have hVpos : 0 < V := by
    rw [hV]
    cases hd : pos.direction <;>
      simp only [position_metrics, hd, Option.getD_some] <;>
      rw [hfrac] <;>
      refine lt_of_lt_of_le ?_ (le_max_right _ _) <;>
      exact mul_pos (mul_pos hinv h0) (by norm_num)
  have hfee : 0 < V - V * trading_fee_rate := by
    simp only [trading_fee_rate]
    nlinarith [hVpos]
  split_ifs <;> simp only <;> linarith [hfee]

/-- Claim C2: for every open position and every
`exit_position(marketPrice, reason, closeFraction)` call (with a nonzero
stored size, entry price and margin slice, the conditions under which the
Python computation completes), the slice value is the invested-margin slice
times `1 + leverage × directionalChangeRate` — the directional rate taken
against the slippage-adjusted fill — floored at 5% of the slice margin; the
exit fee is the slice value times the fee rate; the recorded realized PnL is
`(slice value − slice margin) − exit fee`; the balance grows by exactly
`slice value − exit fee`; and `closeFraction = 1` clears the position. -/
theorem C2_exit_accounting (s : Portfolio) (pos : Position) (market_price : ℚ)
    (reason : String) (close_frac : ℚ)
    (fill change_rate slice_margin slice_value fee : ℚ)
    (hpos : s.position = some pos)
    (hsize : pos.position_size ≠ 0)
    (hentry : pos.entry_price ≠ 0)
    (hslice : pos.invested_amount * close_frac ≠ 0)
    (hfill : fill = apply_slippage market_price pos.direction .exitAct)
    (hrate : change_rate = (match pos.direction with
      | .long => (fill - pos.entry_price) / pos.entry_price
      | .short => (pos.entry_price - fill) / pos.entry_price))
    (hmargin : slice_margin = pos.invested_amount * close_frac)
    (hvalue : slice_value = max (slice_margin * (1 + pos.leverage * change_rate))
        (slice_margin * (5 / 100)))
    (hfee : fee = slice_value * trading_fee_rate) :
    ((exit_position s market_price reason close_frac).1.balance
        = s.balance + (slice_value - fee)) ∧
    (∃ info, (exit_position s market_price reason close_frac).2 = some info ∧
        info.realized_pnl = (slice_value - slice_margin) - fee ∧
        info.exit_fee = fee) ∧
    (close_frac = 1 → (exit_position s market_price reason close_frac).1.position = none) := by
  have hfrac : pos.position_size * close_frac / pos.position_size = close_frac :=
    mul_div_cancel_left₀ close_frac hsize
  have hVal : (position_metrics (some pos)
      (apply_slippage market_price pos.direction TradeAction.exitAct)
      (some (pos.position_size * close_frac))).1 = slice_value := by
    rw [hvalue, hmargin, hrate, hfill]
    cases hd : pos.direction <;>
      simp only [position_metrics, hd, Option.getD_some, hfrac] <;> ring_nf
  have hPnl : (position_metrics (some pos)
      (apply_slippage market_price pos.direction TradeAction.exitAct)
      (some (pos.position_size * close_frac))).2.1 = slice_value - slice_margin := by
    rw [hvalue, hmargin, hrate, hfill]
    cases hd : pos.direction <;>
      simp only [position_metrics, hd, Option.getD_some, hfrac] <;> ring_nf
  subst hfee
  unfold exit_position
  rw [hpos]
  simp only [hsize, hentry, or_self, if_false, false_or, or_false, hslice, if_neg,
    not_false_iff, hVal, hPnl]
  refine ⟨?_, ?_, ?_⟩
  · split_ifs <;> rfl
  · split_ifs <;> exact ⟨_, rfl, rfl, rfl⟩
  · intro h1
    rw [if_neg (by rw [h1]; exact lt_irrefl 1)]

/-- Claim C1 counterexample: with a balance of 10 and an open position on
instrument A, entering on instrument B returns `false` (the minimum-balance
floor fails after the forced close), yet the balance has changed and the
old position is gone — refuting the all-or-nothing reading of a failed
`enter_position`. -/
theorem C1_counterexample :
    (enter_position cex_state "B/USDT" .long 100 1 none none false).2 = false ∧
    (enter_position cex_state "B/USDT" .long 100 1 none none false).1.balance
      ≠ cex_state.balance ∧
    (enter_position cex_state "B/USDT" .long 100 1 none none false).1.position
      ≠ cex_state.position := by
  have hns : normalize_symbol "B/USDT" = "B/USDT" := by decide
  have hAB : ("A/USDT" : String) ≠ "B/USDT" := by decide
  refine ⟨?_, ?_, ?_⟩ <;>
    norm_num [enter_position, cex_state, cex_pos, hns, hAB, exit_position, apply_slippage,
      position_metrics, enter_core, can_enter_position, flip_position,
      trading_fee_rate, slippage_rate, min_balance]
  exact fun hc => Option.noConfusion hc

/-- Claim C1 (amended): a `false` return from `enter_position` leaves the
ledger exactly unchanged whenever no forced close of an existing position
took place: (1) with no open position, any failing call returns the state
untouched; (2) with an open same-instrument same-side position the call is
a pure rejection `(s, false)`.  (The cross-instrument path with the
minimum-balance floor failing after the forced close does change state —
see the counterexample.) -/
theorem C1_failed_enter_unchanged_without_forced_close :
    (∀ (s : Portfolio) (symbol : String) (d : Direction) (p lev : ℚ)
        (t st : Option ℚ), s.position = none →
      (enter_position s symbol d p lev t st false).2 = false →
      (enter_position s symbol d p lev t st false).1 = s) ∧
    (∀ (s : Portfolio) (pos : Position) (symbol : String) (p lev : ℚ)
        (t st : Option ℚ), s.position = some pos →
      normalize_symbol symbol = pos.symbol →
      enter_position s symbol pos.direction p lev t st false = (s, false)) := by
  constructor
  · intro s symbol d p lev t st hpos hf
    unfold enter_position at hf ⊢
    rw [hpos] at hf ⊢
    unfold enter_core at hf ⊢
    dsimp only at hf ⊢
    split_ifs at hf ⊢ with h1 h2
    · rfl
    · rfl
  · intro s pos symbol p lev t st hpos hsym
    unfold enter_position
    rw [hpos]
    simp [hsym.symm]

/-- Claim C8 counterexample: a MACD series whose gap over the signal line
is positive at both of the last two samples (1 then 2 — no sign flip)
still makes the engine emit one bullish crossover signal, refuting the
claim that a crossover is emitted exactly on a sign flip between the last
two samples. -/
theorem C8_counterexample :
    (macd_crossover_signals [some 2, some 3] [some 1, some 1] 3 "SOL/USDT").length = 1 ∧
    ¬ sign_flip_spec (2 - 1) (3 - 1) := by
  constructor
  · norm_num [macd_crossover_signals, detect_macd_signals, safe_get_last_value]
    rw [if_neg (by simp)]
    rfl
  · norm_num [sign_flip_spec]

/-- Claim C8 (amended): both detectors are level tests on the current
sample, not flip tests.  Given at least 3 candles and nonzero current
values, the MACD detector emits exactly one signal iff the MACD value
differs from its signal line (bullish iff above, bearish iff below, none on
equality — so a single cross between the last two samples yields exactly
one signal and equal values yield none, but the signal re-fires while the
gap persists); the moving-average detector emits iff MA20 is above MA50
with price above MA20, or symmetrically below. -/
theorem C8_level_rule (m sv ma20 ma50 current_price : ℚ) (df_len : ℕ) (sym : String)
    (h3 : 3 ≤ df_len) (hm : m ≠ 0) (hs : sv ≠ 0) (h20 : ma20 ≠ 0) (h50 : ma50 ≠ 0) :
    ((detect_macd_signals (some m) (some sv) df_len sym).length = 1 ↔ m ≠ sv) ∧
    (detect_macd_signals (some m) (some sv) df_len sym = [] ↔ m = sv) ∧
    (∀ sig ∈ detect_macd_signals (some m) (some sv) df_len sym,
      (sig.direction = "BUY" ↔ sv < m) ∧ (sig.direction = "SELL" ↔ m < sv)) ∧
    (detect_moving_average_signals (some ma20) (some ma50) current_price sym ≠ [] ↔
      ((ma50 < ma20 ∧ ma20 < current_price) ∨ (ma20 < ma50 ∧ current_price < ma20))) := by
  have hmacd : detect_macd_signals (some m) (some sv) df_len sym =
      (if sv < m then
        [{ symbol := sym, sig_type := "MACD_BULLISH", strength := "MEDIUM",
           value := m - sv, direction := "BUY", priority := 2 }]
      else if m < sv then
        [{ symbol := sym, sig_type := "MACD_BEARISH", strength := "MEDIUM",
           value := sv - m, direction := "SELL", priority := 2 }]
      else []) := by
    unfold detect_macd_signals
    rw [if_neg (not_lt.mpr h3)]
    rw [if_neg (by simp)]
    dsimp only
    rw [if_pos ⟨hm, hs⟩]
  refine ⟨?_, ?_, ?_, ?_⟩
  · rw [hmacd]
    rcases lt_trichotomy sv m with h | h | h
    · rw [if_pos h]
      simp [h.ne']
    · rw [if_neg (by rw [h]; exact lt_irrefl m), if_neg (by rw [h]; exact lt_irrefl m)]
      simp [h]
    · rw [if_neg (asymm h), if_pos h]
      simp [h.ne]
  · rw [hmacd]
    rcases lt_trichotomy sv m with h | h | h
    · rw [if_pos h]
      simp [h.ne']
    · rw [if_neg (by rw [h]; exact lt_irrefl m), if_neg (by rw [h]; exact lt_irrefl m)]
      simp [h]
    · rw [if_neg (asymm h), if_pos h]
      simp [h.ne]
  · rw [hmacd]
    rcases lt_trichotomy sv m with h | h | h
    · rw [if_pos h]
      intro sig hsig
      rw [List.mem_singleton] at hsig
      subst hsig
      simp [h, asymm h]
    · rw [if_neg (by rw [h]; exact lt_irrefl m), if_neg (by rw [h]; exact lt_irrefl m)]
      intro sig hsig
      exact absurd hsig (List.not_mem_nil sig)
    · rw [if_neg (asymm h), if_pos h]
      intro sig hsig
      rw [List.mem_singleton] at hsig
      subst hsig
      simp [h, asymm h]
  · unfold detect_moving_average_signals
    dsimp only
    rw [if_pos ⟨h20, h50⟩]
    by_cases hg : ma50 < ma20 ∧ ma20 < current_price
    · rw [if_pos hg]
      simp [hg]
    · rw [if_neg hg]
      by_cases hd2 : ma20 < ma50 ∧ current_price < ma20
      · rw [if_pos hd2]
        simp [hd2]
      · rw [if_neg hd2]
        simp [hg, hd2]

theorem C2_exit_accounting_witness :
    ((exit_position wit_state_long 110 "test" (1/2)).1.balance
      = 1000 + (5989/100 - 5989/250000)) ∧
    (∃ info, (exit_position wit_state_long 110 "test" (1/2)).2 = some info ∧
      info.realized_pnl = (5989/100 - 50) - 5989/250000 ∧
      info.exit_fee = 5989/250000) ∧
    ((1:ℚ)/2 = 1 → (exit_position wit_state_long 110 "test" (1/2)).1.position = none) :=
  C2_exit_accounting wit_state_long wit_pos_long 110 "test" (1/2)
    (10989/100) (989/10000) 50 (5989/100) (5989/250000)
    rfl
    (by norm_num [wit_pos_long])
    (by norm_num [wit_pos_long])
    (by norm_num [wit_pos_long])
    (by norm_num [wit_pos_long, apply_slippage, slippage_rate])
    (by norm_num [wit_pos_long])
    (by norm_num [wit_pos_long])
    (by norm_num [wit_pos_long, max_def])
    (by norm_num [trading_fee_rate])

theorem C3_fresh_entry_witness :
    (enter_position { balance := 10000, position := none, trades := [] } "X"
        Direction.long 100 2 (some 110) (some 95) false).2 = true ∧
    (enter_position { balance := 10000, position := none, trades := [] } "X"
        Direction.long 100 2 (some 110) (some 95) false).1.balance = 500 ∧
    ((enter_position { balance := 10000, position := none, trades := [] } "X"
        Direction.long 100 2 (some 110) (some 95) false).1.position.map
      Position.entry_price) = some (1001/10) ∧
    ((enter_position { balance := 10000, position := none, trades := [] } "X"
        Direction.long 100 2 (some 110) (some 95) false).1.position.map
      Position.invested_amount) = some (47481/5) ∧
    ((enter_position { balance := 10000, position := none, trades := [] } "X"
        Direction.long 100 2 (some 110) (some 95) false).1.position.map
      Position.position_size) = some (27132/143) := by
  have h := C3_fresh_entry { balance := 10000, position := none, trades := [] } "X"
    Direction.long 100 2 (some 110) (some 95) (1001/10) 9500 (19/5) (47481/5)
    rfl (by norm_num [min_balance]) (by norm_num [slippage_rate]) (by norm_num)
    (by norm_num) (by norm_num [trading_fee_rate]) (by norm_num)
  rw [h]
  refine ⟨rfl, by norm_num, by norm_num, by norm_num, ?_⟩
  simp only [Option.map_some]
  norm_num

theorem C4_trailing_stop_monotone_witness :
    ((4949:ℚ)/50 ≤ 1029/10) ∧ ((969:ℚ)/10 ≤ 5049/50) := by
  constructor
  · exact C4_trailing_stop_monotone.1 wit_state_long [101] [105, 103] (4949/50) (1029/10)
      ⟨wit_pos_long, rfl, rfl, Or.inl rfl⟩
      (by norm_num [run_trailing, update_trailing_stop, trailing_of, wit_state_long,
        wit_pos_long, trailing_stop_frac])
      (by norm_num [run_trailing, update_trailing_stop, trailing_of, wit_state_long,
        wit_pos_long, trailing_stop_frac])
  · exact C4_trailing_stop_monotone.2 wit_state_short [99] [95, 97] (5049/50) (969/10)
      ⟨wit_pos_short, rfl, rfl, Or.inl rfl⟩
      (by norm_num [run_trailing, update_trailing_stop, trailing_of, wit_state_short,
        wit_pos_short, trailing_stop_frac, below_lowest])
      (by norm_num [run_trailing, update_trailing_stop, trailing_of, wit_state_short,
        wit_pos_short, trailing_stop_frac, below_lowest])

theorem C5_same_position_noop_witness :
    enter_position wit_state_long "SOL/USDT" wit_pos_long.direction 100 1 none none false
      = (wit_state_long, false) :=
  C5_same_position_noop wit_state_long wit_pos_long "SOL/USDT" 100 1 none none rfl
    (by decide)

theorem C6_flip_equals_close_then_open_witness :
    ((enter_position wit_state_long "SOL/USDT" Direction.short 100 1 none none false).1.balance
      = (enter_position (exit_position wit_state_long 100 "Manual" 1).1 "SOL/USDT"
          Direction.short 100 1 none none false).1.balance) ∧
    ((enter_position wit_state_long "SOL/USDT" Direction.short 100 1 none none false).1.position
      = (enter_position (exit_position wit_state_long 100 "Manual" 1).1 "SOL/USDT"
          Direction.short 100 1 none none false).1.position) ∧
    ((enter_position wit_state_long "SOL/USDT" Direction.short 100 1 none none false).2
      = (enter_position (exit_position wit_state_long 100 "Manual" 1).1 "SOL/USDT"
          Direction.short 100 1 none none false).2) ∧
    ((enter_position wit_state_long "SOL/USDT" Direction.short 100 1 none none false).2 = true →
      (enter_position wit_state_long "SOL/USDT" Direction.short 100 1 none none
          false).1.trades.length
        = wit_state_long.trades.length + 2) :=
  C6_flip_equals_close_then_open wit_state_long wit_pos_long "SOL/USDT" Direction.short
    100 1 none none "Manual" rfl (by decide) (by decide) (by decide)

theorem C7_balance_never_negative_witness :
    0 ≤ (run_ops { balance := 10000, position := none, trades := [] }
      [LedgerOp.enterOp "X" Direction.long 100 2 none none,
       LedgerOp.exitOp 110 "test" 1]).balance := by
  refine C7_balance_never_negative 10000 _ (by norm_num) ?_
  intro op hop
  simp only [List.mem_cons, List.not_mem_nil, or_false] at hop
  rcases hop with rfl | rfl
  · trivial
  · exact ⟨by norm_num, le_refl 1⟩

theorem C8_level_rule_witness :
    ((detect_macd_signals (some 3) (some 1) 3 "SOL/USDT").length = 1 ↔ (3:ℚ) ≠ 1) ∧
    (detect_macd_signals (some 3) (some 1) 3 "SOL/USDT" = [] ↔ (3:ℚ) = 1) ∧
    (∀ sig ∈ detect_macd_signals (some 3) (some 1) 3 "SOL/USDT",
      (sig.direction = "BUY" ↔ (1:ℚ) < 3) ∧ (sig.direction = "SELL" ↔ (3:ℚ) < 1)) ∧
    (detect_moving_average_signals (some 10) (some 9) 11 "SOL/USDT" ≠ [] ↔
      (((9:ℚ) < 10 ∧ (10:ℚ) < 11) ∨ ((10:ℚ) < 9 ∧ (11:ℚ) < 10))) :=
  C8_level_rule 3 1 10 9 11 3 "SOL/USDT" (le_refl 3) (by norm_num) (by norm_num)
    (by norm_num) (by norm_num)

theorem C10_exit_strictly_credits_witness :
    wit_state_long.balance < (exit_position wit_state_long 110 "test" 1).1.balance :=
  C10_exit_strictly_credits wit_state_long wit_pos_long 110 "test" 1 rfl
    (by norm_num [wit_pos_long]) (by norm_num [wit_pos_long])
    (by norm_num [wit_pos_long]) (by norm_num) (le_refl 1)

theorem C1_failed_enter_unchanged_witness :
    ((enter_position { balance := 50, position := none, trades := [] } "X" Direction.long
        100 1 none none false).1 = { balance := 50, position := none, trades := [] }) ∧
    (enter_position wit_state_long "SOL/USDT" wit_pos_long.direction 100 1 none none false
      = (wit_state_long, false)) := by
  constructor
  · exact C1_failed_enter_unchanged_without_forced_close.1
      { balance := 50, position := none, trades := [] } "X" Direction.long 100 1 none none
      rfl
      (by norm_num [enter_position, enter_core, can_enter_position, min_balance])
  · exact C1_failed_enter_unchanged_without_forced_close.2 wit_state_long wit_pos_long
      "SOL/USDT" 100 1 none none rfl (by decide)

end CTB
